import Mathlib

/-
  Shallow embedding of the torrent-reconciliation plugins of the
  MoviePilot-Plugins repository (plugins.v2: tag, limit, delete).
  Strings are modelled as lists of characters; Python dictionaries as
  association lists with in-place value update; Python exceptions as an
  explicit error type threaded through `Except`.
-/

namespace MPP

/-- Python strings, modelled as lists of characters. -/
abbrev Str := List Char

/-- Python exception kinds that the embedded code can raise. -/
inductive PyErr where
  | indexError
  | valueError
  | typeError
  | attributeError
deriving DecidableEq

/-- True when an `Except` computation finished without raising. -/
def exIsOk : Except PyErr α → Bool
  | .ok _ => true
  | .error _ => false

/-- Python `s.split(sep)` for a one-character separator: always returns at
least one piece, empty pieces included. -/
def splitOnChar (c : Char) : Str → List Str
  | [] => [[]]
  | a :: rest =>
    let r := splitOnChar c rest
    if a = c then [] :: r
    else
      match r with
      | h :: t => (a :: h) :: t
      | [] => [[a]]

/-- Whether `needle` occurs at the start of `hay`. -/
def listStarts : Str → Str → Bool
  | [], _ => true
  | _ :: _, [] => false
  | a :: as, b :: bs => a = b && listStarts as bs

/-- Python `needle in hay` on strings: contiguous-substring test, with the
empty needle matching everything. -/
def pyIn (needle : Str) : Str → Bool
  | [] => needle.isEmpty
  | b :: bs => listStarts needle (b :: bs) || pyIn needle bs

/-- Lookup in a Python dict represented as an association list. -/
def dictLookup (d : List (Str × α)) (k : Str) : Option α :=
  match d with
  | [] => none
  | (k1, v1) :: rest => if k1 = k then some v1 else dictLookup rest k

/-- Python `d[k] = v`: updates the value in place when the key exists
(keeping the key's original position), otherwise appends, exactly like the
insertion-order semantics of a Python dict. -/
def dictInsert (d : List (Str × α)) (k : Str) (v : α) : List (Str × α) :=
  match d with
  | [] => [(k, v)]
  | (k1, v1) :: rest => if k1 = k then (k1, v) :: rest else (k1, v1) :: dictInsert rest k v

/-- Building a Python dict from a list of key-value assignments in order. -/
def pyDict (ps : List (Str × α)) : List (Str × α) :=
  ps.foldl (fun d p => dictInsert d p.1 p.2) []

/-- Decimal digit test. -/
def isDigitChar (c : Char) : Bool := '0' ≤ c && c ≤ '9'

/-- Value of a digit string. -/
def digitsToNat (s : Str) : Nat :=
  s.foldl (fun acc c => acc * 10 + (c.toNat - '0'.toNat)) 0

/-- Strip leading and trailing spaces. -/
def stripWS (s : Str) : Str :=
  ((s.dropWhile (fun c => c = ' ')).reverse.dropWhile (fun c => c = ' ')).reverse

/-- Core of Python `int(str)`: optional sign followed by at least one
decimal digit (underscore and non-ASCII digit forms are not modelled; the
strings the development evaluates on are plain decimals or clearly
non-numeric). -/
def pyIntCore (s : Str) : Option Int :=
  match s with
  | '-' :: rest =>
    if rest ≠ [] ∧ rest.all isDigitChar then some (-(digitsToNat rest : Int)) else none
  | '+' :: rest =>
    if rest ≠ [] ∧ rest.all isDigitChar then some (digitsToNat rest : Int) else none
  | _ =>
    if s ≠ [] ∧ s.all isDigitChar then some (digitsToNat s : Int) else none

/-- Python `int(s)` on a string: parses or raises `ValueError`. -/
def pyInt (s : Str) : Except PyErr Int :=
  match pyIntCore (stripWS s) with
  | some n => .ok n
  | none => .error .valueError

/-- The `str_to_number` helper shared by the plugins:
`int(s)` guarded by `except ValueError: return i`.  A `None` argument makes
`int` raise `TypeError`, which the guard does not catch. -/
def strToNumber (s : Option Str) (i : Int) : Except PyErr Int :=
  match s with
  | none => .error .typeError
  | some s =>
    match pyInt s with
    | .ok n => .ok n
    | .error .valueError => .ok i
    | .error e => .error e

/-- First entry of an ordered rule table whose key is a substring of the
subject (the `for key, label in map.items(): if key in subject` loops of the
tag plugin). -/
def firstMatch (table : List (Str × α)) (subject : Str) : Option α :=
  match table with
  | [] => none
  | (k, v) :: rest => if pyIn k subject then some v else firstMatch rest subject

/-- First element of the list on which `f` yields a value. -/
def firstSome (f : α → Option β) : List α → Option β
  | [] => none
  | a :: rest =>
    match f a with
    | some b => some b
    | none => firstSome f rest

/-- A stop-signal function that never fires. -/
def noStop : Nat → Bool := fun _ => false

/-- Downloader kinds distinguished by the plugins. -/
inductive DlType where
  | qbittorrent
  | transmission
deriving DecidableEq

/-- Remove duplicates (Python `set` round-trip; the element order of a
Python set is unspecified, so only membership in the result is meaningful). -/
def setDedup (l : List Str) : List Str := l.dedup

/-- Python `list(set(a) - set(b))` up to element order. -/
def setDiff (a b : List Str) : List Str :=
  (setDedup a).filter (fun x => !(b.contains x))

/-- Python `list(set(a).union(set(b)))` up to element order. -/
def setUnion (a b : List Str) : List Str := setDedup (a ++ b)

namespace DownloadSiteTag

/-- One iteration of the rule-table build loop of `_complemented_history`
(lines 193-202): `i = item.split(":"); i[0]; i[1]` — a line without a
separator raises `IndexError` at `i[1]`. -/
def lineKV (item : Str) : Except PyErr (Str × Str) :=
  match splitOnChar ':' item with
  | k :: v :: _ => .ok (k, v)
  | _ => .error .indexError

/-- The rule-table build loop of `_complemented_history` over the split
lines, carrying the dict built so far. -/
def parseMapGo (d : List (Str × Str)) : List Str → Except PyErr (List (Str × Str))
  | [] => .ok d
  | x :: xs =>
    match lineKV x with
    | .error e => .error e
    | .ok kv => parseMapGo (dictInsert d kv.1 kv.2) xs

/-- The rule-table build of `_complemented_history` for `tracker_map` and
`save_path_map`: split the text on newlines and assign `d[i[0]] = i[1]`
for every line, into a Python dict. -/
def parseMapTag (text : Str) : Except PyErr (List (Str × Str)) :=
  parseMapGo [] (splitOnChar '\n' text)

/-- A line the tag-plugin table build survives: it has a separator, so
`i[1]` exists. -/
def tagLineOk (item : Str) : Bool :=
  match splitOnChar ':' item with
  | _ :: _ :: _ => true
  | _ => false

/-- Elementwise `lineKV` over a list of lines, stopping at the first
raising line (the key-value pairs the build loop would assign, in order). -/
def mapLineKV : List Str → Except PyErr (List (Str × Str))
  | [] => .ok []
  | x :: xs =>
    match lineKV x with
    | .error e => .error e
    | .ok kv => (mapLineKV xs).map (fun ps => kv :: ps)

/-- The site-label resolution of `_complemented_history` (lines 237-251):
for each tracker URL in the torrent's own order, first try the first
substring-matching `tracker_map` rule; if the inner loop finishes without a
break, fall back to the indexer registry on the tracker's domain; stop at
the first tracker yielding any label.  `urlDomain` models
`StringUtils.get_url_domain` and `getIndexer` models
`sites_helper.get_indexer(...).get("name")`, both host helpers. -/
def resolveSiteLabel (trackerMap : List (Str × Str)) (urlDomain : Str → Str)
    (getIndexer : Str → Option Str) (trackers : List Str) : Option Str :=
  firstSome
    (fun tr =>
      match firstMatch trackerMap tr with
      | some l => some l
      | none => getIndexer (urlDomain tr))
    trackers

/-- Per-torrent view consumed by the tag plugin: the values returned by the
`_get_hash` / `_get_path` / `_get_label` / `_get_trackers` accessors (each
of which traps its own exceptions and returns a default). -/
structure TagTorrent where
  dlType : DlType
  hash : Str
  path : Str
  tags : List Str
  trackers : List Str

/-- Mutator calls the tag plugin can issue. -/
inductive TagEffect where
  | setTags (hash : Str) (tags : List Str)
deriving DecidableEq

/-- `_set_torrent_info` (lines 355-370): returns early when there are no
new tags or no hash, otherwise always issues `set_torrent_tag` — for
qbittorrent with the set difference of the new tags against the existing
ones (possibly empty), for transmission with the union. -/
def setTorrentInfo (dlType : DlType) (hash : Str) (tags origTags : List Str) :
    Option TagEffect :=
  if tags.isEmpty || hash.isEmpty then none
  else
    some (.setTags hash
      (if dlType = DlType.qbittorrent ∧ ¬ origTags.isEmpty
       then setDiff tags origTags
       else setUnion origTags tags))

/-- The per-torrent body of `_complemented_history` (lines 222-255): skip
torrents without hash or path; collect the first matching save-path label;
resolve a site label only when the current tags do not intersect the known
indexer names; call `_set_torrent_info` when any label was collected. -/
def processTorrent (indexers : List Str) (trackerMap savePathMap : List (Str × Str))
    (urlDomain : Str → Str) (getIndexer : Str → Option Str) (t : TagTorrent) :
    Option TagEffect :=
  if t.hash.isEmpty || t.path.isEmpty then none
  else
    let pathSites := (firstMatch savePathMap t.path).toList
    let sites :=
      if t.tags.any (fun tg => indexers.contains tg) then pathSites
      else
        match resolveSiteLabel trackerMap urlDomain getIndexer t.trackers with
        | some s => pathSites ++ [s]
        | none => pathSites
    if sites.isEmpty then none
    else setTorrentInfo t.dlType t.hash sites t.tags

end DownloadSiteTag

namespace Limit

/-- `_global_speed` is either a number or the placeholder string. -/
inductive PyVal where
  | int (n : Int)
  | str (s : Str)
deriving DecidableEq

/-- The placeholder label assigned to `_global_speed` when the parsed
value is falsy. -/
def gsPlaceholder : Str := "全局限速(KB)".data

/-- Line 68 of the limit plugin:
`self._global_speed = self.str_to_number(config.get("global_speed"), 0) or "全局限速(KB)"`.
A parse result of 0 (Python-falsy) selects the placeholder string; a
missing key makes `str_to_number` raise `TypeError`. -/
def initGlobalSpeed (cfgVal : Option Str) : Except PyErr PyVal :=
  match strToNumber cfgVal 0 with
  | .error e => .error e
  | .ok n => .ok (if n = 0 then .str gsPlaceholder else .int n)

/-- One iteration of the `tag_map` build loop of `_complete_limit`
(lines 198-204): `i[1]` raises `IndexError` on a line with no separator,
an empty value is skipped with `continue`, and `int(i[1])` raises
`ValueError` on a non-numeric value. -/
def limLineStep (d : List (Str × Int)) (item : Str) : Except PyErr (List (Str × Int)) :=
  match splitOnChar ':' item with
  | k :: v :: _ =>
    if v.isEmpty then .ok d
    else (pyInt v).map (fun n => dictInsert d k n)
  | _ => .error .indexError

/-- The `tag_map` build loop of `_complete_limit` over the split lines. -/
def parseTagGo (d : List (Str × Int)) : List Str → Except PyErr (List (Str × Int))
  | [] => .ok d
  | x :: xs =>
    match limLineStep d x with
    | .error e => .error e
    | .ok d2 => parseTagGo d2 xs

/-- The `tag_map` table build of `_complete_limit` (lines 196-204). -/
def parseTagMap (text : Str) : Except PyErr (List (Str × Int)) :=
  parseTagGo [] (splitOnChar '\n' text)

/-- A line the limit-plugin table build survives: it has a separator and
its value is either empty (skipped by `continue`) or a parseable integer. -/
def limLineOk (item : Str) : Bool :=
  match splitOnChar ':' item with
  | _ :: v :: _ => v.isEmpty || exIsOk (pyInt v)
  | _ => false

/-- The speed lookup loop of `_complete_limit` (lines 222-226): the first
tag, in the torrent's own tag order, that is an exact key of the table. -/
def resolveLimitTag (tagMap : List (Str × Int)) : List Str → Option Int
  | [] => none
  | tg :: rest =>
    match dictLookup tagMap tg with
    | some v => some v
    | none => resolveLimitTag tagMap rest

/-- Per-torrent view consumed by the limit plugin.  `upLimit` is the raw
`torrent.up_limit` attribute read (line 212), which happens outside the
per-torrent `try` and may raise; `mutatorFails` marks a torrent whose
`_set_torrent_speed` call raises (caught by the per-torrent `except`). -/
structure LimTorrent where
  hash : Str
  tags : List Str
  upLimit : Except PyErr Int
  mutatorFails : Bool

/-- One downloader service as seen by the limit run. -/
structure LimService where
  name : Str
  fetchError : Bool
  torrents : List LimTorrent

/-- The limit-plugin configuration fields read by `_complete_limit`. -/
structure LimConfig where
  cover : Bool
  globalFlag : Bool
  globalSpeed : PyVal
  tagMapText : Str

/-- Mutator calls the limit plugin can issue (completed calls only; a
failing per-torrent call is trapped by the `except` and leaves no effect). -/
inductive LimEffect where
  | setSpeedLimit (downloadLimit : Int) (uploadLimit : PyVal) (svc : Str)
  | setTorrentSpeed (svc : Str) (hash : Str) (speed : Int)
deriving DecidableEq

/-- Run state of `_complete_limit`: issued effects, an uncaught Python
exception if one propagated, the cooperative-stop flag, and the count of
torrents that reached the stop-signal check. -/
structure LimRun where
  effects : List LimEffect
  raised : Option PyErr
  stopped : Bool
  idx : Nat

/-- The per-torrent body of `_complete_limit` (lines 211-229): the
`up_limit`/cover guard precedes the `try`, so an exception reading
`up_limit` propagates and aborts the run; everything inside the `try`
(stop check, tag lookup, mutator call) is trapped per torrent. -/
def torrentStep (cover : Bool) (tagMap : List (Str × Int)) (stop : Nat → Bool)
    (svcName : Str) (r : LimRun) (t : LimTorrent) : LimRun :=
  if r.stopped || r.raised.isSome then r
  else
    match t.upLimit with
    | .error e => { r with raised := some e }
    | .ok up =>
      if up > 0 && !cover then r
      else if stop r.idx then { r with stopped := true, idx := r.idx + 1 }
      else
        let r1 := { r with idx := r.idx + 1 }
        match resolveLimitTag tagMap t.tags with
        | some sp =>
          if t.mutatorFails then r1
          else { r1 with effects := r1.effects ++ [.setTorrentSpeed svcName t.hash sp] }
        | none => r1

/-- The per-downloader body of `_complete_limit` (lines 183-229): the
global speed-limit call comes first, then `tag_map` is rebuilt for this
service (a parse exception propagates), then the torrent loop. -/
def serviceStep (cfg : LimConfig) (stop : Nat → Bool) (r : LimRun) (s : LimService) :
    LimRun :=
  if r.stopped || r.raised.isSome then r
  else
    let r1 :=
      if cfg.globalFlag then
        { r with effects := r.effects ++ [.setSpeedLimit 0 cfg.globalSpeed s.name] }
      else r
    if cfg.tagMapText.isEmpty then r1
    else
      match parseTagMap cfg.tagMapText with
      | .error e => { r1 with raised := some e }
      | .ok tagMap =>
        if s.fetchError || s.torrents.isEmpty then r1
        else s.torrents.foldl (torrentStep cfg.cover tagMap stop s.name) r1

/-- One full `_complete_limit` run over the configured services. -/
def limRun (cfg : LimConfig) (services : List LimService) (stop : Nat → Bool) : LimRun :=
  services.foldl (serviceStep cfg stop) ⟨[], none, false, 0⟩

/-- The mutator calls issued by one `_complete_limit` run. -/
def completeLimit (cfg : LimConfig) (services : List LimService) (stop : Nat → Bool) :
    List LimEffect :=
  (limRun cfg services stop).effects

end Limit

namespace Delete

/-- The per-hash record `{"type": ..., "name": ..., "time": ...}` persisted
by the delete plugin. -/
structure FailRec where
  dtype : Str
  name : Str
  time : Nat
deriving DecidableEq

/-- The persisted counter store: a Python dict keyed by torrent hash. -/
abbrev Store := List (Str × FailRec)

/-- Per-torrent view consumed by the delete plugin: accessor results plus
one boolean per tracker telling whether that tracker reports success
(`status == 2` for qbittorrent, `last_announce_result == 'Success'` for
transmission; `_check` treats both the same way). -/
structure DelTorrent where
  hash : Str
  name : Str
  tags : List Str
  trackerOk : List Bool

/-- One downloader service as seen by the delete run. -/
structure DelService where
  name : Str
  fetchError : Bool
  torrents : List DelTorrent

/-- The delete-plugin configuration fields read by `init_plugin` that the
run can consult: the `delete` switch, `accumulate`, the failure threshold
`times` and the ignore-tag text `tag_map`. -/
structure DelConfig where
  delete : Bool
  accumulate : Bool
  times : Int
  tagMapText : Str

/-- Mutator and persistence calls the delete run can issue. -/
inductive DelEffect where
  | delete (hash : Str) (deleteFile : Bool)
  | save (store : Store)
deriving DecidableEq

/-- Dict state of a `_complete_delete` run: `oldC` is `self._old_config`,
`newC` is `self._new_config`; with `accumulate` off the two names alias the
same Python dict, modelled by `aliased` keeping them in lockstep. -/
structure DelState where
  oldC : Store
  newC : Store
  aliased : Bool
  effects : List DelEffect

/-- Assignment `self._new_config[hash] = rec`, visible through
`self._old_config` too when the two names alias the same dict. -/
def write (st : DelState) (h : Str) (r : FailRec) : DelState :=
  { st with
    newC := dictInsert st.newC h r,
    oldC := if st.aliased then dictInsert st.oldC h r else st.oldC }

/-- `_handle` (lines 233-249): a hash already recorded gets its count
incremented; above the threshold the torrent is deleted (keeping files)
and the record is not written; otherwise the incremented record is stored;
an unseen hash is recorded with count 1. -/
def handle (times : Int) (svcName : Str) (t : DelTorrent) (st : DelState) : DelState :=
  match dictLookup st.oldC t.hash with
  | some r =>
    let time := r.time + 1
    if (time : Int) > times then
      { st with effects := st.effects ++ [.delete t.hash false] }
    else
      write st t.hash ⟨svcName, t.name, time⟩
  | none => write st t.hash ⟨svcName, t.name, 1⟩

/-- `_check` (lines 212-231): call `_handle` only when no tracker of the
torrent reports success. -/
def check (times : Int) (svcName : Str) (t : DelTorrent) (st : DelState) : DelState :=
  if t.trackerOk.any id then st else handle times svcName t st

/-- Whether any of the torrent's tags appears in the ignore list
(lines 202-206). -/
def ignored (tagMap : List Str) (t : DelTorrent) : Bool :=
  t.tags.any (fun tg => tagMap.contains tg)

/-- Progress of a `_complete_delete` run: the dict state, the count of
torrents that reached the stop-signal check, and whether the stop signal
made the run return early. -/
structure DelRun where
  st : DelState
  idx : Nat
  stopped : Bool

/-- The per-torrent body of `_complete_delete` (lines 195-208): check the
stop signal first (a set signal returns from the whole run), then skip
torrents carrying an ignore tag, else `_check`. -/
def torrentStep (stop : Nat → Bool) (times : Int) (tagMap : List Str) (svcName : Str)
    (r : DelRun) (t : DelTorrent) : DelRun :=
  if r.stopped then r
  else if stop r.idx then { r with stopped := true, idx := r.idx + 1 }
  else
    let st := if ignored tagMap t then r.st else check times svcName t r.st
    { r with st := st, idx := r.idx + 1 }

/-- The per-downloader body of `_complete_delete` (lines 182-208): a fetch
error or an empty torrent list skips the downloader. -/
def serviceStep (stop : Nat → Bool) (times : Int) (tagMap : List Str)
    (r : DelRun) (s : DelService) : DelRun :=
  if r.stopped then r
  else if s.fetchError || s.torrents.isEmpty then r
  else s.torrents.foldl (torrentStep stop times tagMap s.name) r

/-- The ignore-tag list: `tag_map = self._tag_map.split("\n")` when the
text is non-empty, `[]` otherwise (lines 179-181). -/
def tagMapOf (text : Str) : List Str :=
  if text.isEmpty then [] else splitOnChar '\n' text

/-- The dict state and loop progress of one `_complete_delete` run:
`_old_config` is the stored map, `_new_config` starts empty with
`accumulate` on and aliases `_old_config` with `accumulate` off
(lines 172-177). -/
def delRun (cfg : DelConfig) (stored : Store) (services : List DelService)
    (stop : Nat → Bool) : DelRun :=
  services.foldl (serviceStep stop cfg.times (tagMapOf cfg.tagMapText))
    ⟨⟨stored, if cfg.accumulate then [] else stored, !cfg.accumulate, []⟩, 0, false⟩

/-- One full `_complete_delete` run (lines 169-210): no active service
returns before anything happens; a stop-signal return skips the final
`save_data`; otherwise the whole map is committed once at the end. -/
def completeDelete (cfg : DelConfig) (stored : Store) (services : List DelService)
    (stop : Nat → Bool) : List DelEffect :=
  if services.isEmpty then []
  else
    let r := delRun cfg stored services stop
    if r.stopped then r.st.effects else r.st.effects ++ [.save r.st.newC]

/-- The stores committed by `save_data` among a run's effects. -/
def savedStores (es : List DelEffect) : List Store :=
  es.filterMap (fun e => match e with | .save s => some s | _ => none)

/-- The store persisted after `k` successive uninterrupted runs over a
single downloader, starting from an empty store (what run `k+1` will read
back with `get_data`). -/
def runsStore (cfg : DelConfig) (svc : DelService) : Nat → Store
  | 0 => []
  | k + 1 => (delRun cfg (runsStore cfg svc k) [svc] noStop).st.newC

end Delete

/-! Helper lemmas about the Python-dict model. -/

theorem dictLookup_insert (d : List (Str × α)) (k : Str) (v : α) (q : Str) :
    dictLookup (dictInsert d k v) q = if k = q then some v else dictLookup d q := by
  induction d with
  | nil =>
    simp only [dictInsert, dictLookup]
  | cons hd tl ih =>
    obtain ⟨k1, v1⟩ := hd
    by_cases h1 : k1 = k
    · subst h1
      simp only [dictInsert, if_pos rfl, dictLookup]
      by_cases h2 : k1 = q
      · subst h2
        simp
      · simp [h2]
    · simp only [dictInsert, if_neg h1, dictLookup]
      by_cases h2 : k1 = q
      · subst h2
        have : ¬ k = k1 := fun h => h1 h.symm
        simp [this]
      · simp [h2, ih]

theorem dictLookup_foldl_insert (ps : List (Str × α)) (d : List (Str × α)) (q : Str) :
    dictLookup (ps.foldl (fun d p => dictInsert d p.1 p.2) d) q
      = ps.foldl (fun acc p => if p.1 = q then some p.2 else acc) (dictLookup d q) := by
  induction ps generalizing d with
  | nil => rfl
  | cons p rest ih =>
    simp only [List.foldl_cons]
    rw [ih, dictLookup_insert]

/-- Lookup in a built Python dict returns the value of the last assignment
to that key (later duplicate lines overwrite earlier ones). -/
theorem dictLookup_pyDict (ps : List (Str × α)) (q : Str) :
    dictLookup (pyDict ps) q
      = ps.foldl (fun acc p => if p.1 = q then some p.2 else acc) none := by
  simpa using dictLookup_foldl_insert ps [] q

/-! Helper lemmas about rule-table parsing. -/

theorem tag_parse_go (lines : List Str) (ps : List (Str × Str))
    (h : DownloadSiteTag.mapLineKV lines = .ok ps) (d : List (Str × Str)) :
    DownloadSiteTag.parseMapGo d lines
      = .ok (ps.foldl (fun d p => dictInsert d p.1 p.2) d) := by
  induction lines generalizing ps d with
  | nil =>
    simp only [DownloadSiteTag.mapLineKV] at h
    cases h
    rfl
  | cons x xs ih =>
    simp only [DownloadSiteTag.mapLineKV] at h
    cases hkv : DownloadSiteTag.lineKV x with
    | error e => rw [hkv] at h; cases h
    | ok kv =>
      rw [hkv] at h
      cases hxs : DownloadSiteTag.mapLineKV xs with
      | error e => rw [hxs] at h; cases h
      | ok ps1 =>
        rw [hxs] at h
        simp only [Except.map] at h
        cases h
        simp only [DownloadSiteTag.parseMapGo, hkv]
        rw [ih ps1 hxs]
        rfl

theorem tag_parse_ok_of_lines (lines : List Str)
    (h : ∀ item ∈ lines, DownloadSiteTag.tagLineOk item = true) (d : List (Str × Str)) :
    exIsOk (DownloadSiteTag.parseMapGo d lines) = true := by
  induction lines generalizing d with
  | nil => rfl
  | cons x xs ih =>
    have hx := h x (List.mem_cons_self x xs)
    simp only [DownloadSiteTag.tagLineOk] at hx
    cases hs : splitOnChar ':' x with
    | nil => rw [hs] at hx; cases hx
    | cons k rest =>
      cases rest with
      | nil => rw [hs] at hx; cases hx
      | cons v rest2 =>
        simp only [DownloadSiteTag.parseMapGo, DownloadSiteTag.lineKV, hs]
        exact ih (fun item hi => h item (List.mem_cons_of_mem x hi)) _

theorem lim_parse_ok_of_lines (lines : List Str)
    (h : ∀ item ∈ lines, Limit.limLineOk item = true) (d : List (Str × Int)) :
    exIsOk (Limit.parseTagGo d lines) = true := by
  induction lines generalizing d with
  | nil => rfl
  | cons x xs ih =>
    have hx := h x (List.mem_cons_self x xs)
    have hrest : ∀ item ∈ xs, Limit.limLineOk item = true :=
      fun item hi => h item (List.mem_cons_of_mem x hi)
    simp only [Limit.limLineOk] at hx
    cases hs : splitOnChar ':' x with
    | nil => rw [hs] at hx; cases hx
    | cons k rest =>
      cases rest with
      | nil => rw [hs] at hx; cases hx
      | cons v rest2 =>
        rw [hs] at hx
        simp only [Limit.parseTagGo, Limit.limLineStep, hs]
        by_cases hv : v.isEmpty
        · simp only [hv, if_true]
          exact ih hrest d
        · simp only [hv] at hx ⊢
          simp only [Bool.false_or] at hx
          cases hp : pyInt v with
          | error e => rw [hp] at hx; simp [exIsOk] at hx
          | ok n =>
            simpa [Except.map] using ih hrest (dictInsert d k n)

/-! Helper lemmas about the limit run: no exception escapes the per-torrent
loop when every `up_limit` read succeeds. -/

theorem lim_torrentStep_raised (cover : Bool) (tm : List (Str × Int)) (stop : Nat → Bool)
    (svc : Str) (r : Limit.LimRun) (t : Limit.LimTorrent)
    (h : exIsOk t.upLimit = true) :
    (Limit.torrentStep cover tm stop svc r t).raised = r.raised := by
  cases hu : t.upLimit with
  | error e => rw [hu] at h; simp [exIsOk] at h
  | ok up =>
    simp only [Limit.torrentStep, hu]
    split
    · rfl
    · split
      · rfl
      · split
        · rfl
        · split
          · split
            · rfl
            · rfl
          · rfl

theorem lim_fold_raised (cover : Bool) (tm : List (Str × Int)) (stop : Nat → Bool)
    (svc : Str) (ts : List Limit.LimTorrent) (r : Limit.LimRun)
    (h : ∀ t ∈ ts, exIsOk t.upLimit = true) :
    (ts.foldl (Limit.torrentStep cover tm stop svc) r).raised = r.raised := by
  induction ts generalizing r with
  | nil => rfl
  | cons t rest ih =>
    simp only [List.foldl_cons]
    rw [ih _ (fun x hx => h x (List.mem_cons_of_mem t hx)),
      lim_torrentStep_raised _ _ _ _ _ _ (h t (List.mem_cons_self t rest))]

theorem lim_serviceStep_raised (cfg : Limit.LimConfig) (stop : Nat → Bool)
    (r : Limit.LimRun) (s : Limit.LimService)
    (hp : cfg.tagMapText.isEmpty = true ∨ exIsOk (Limit.parseTagMap cfg.tagMapText) = true)
    (h : ∀ t ∈ s.torrents, exIsOk t.upLimit = true) :
    (Limit.serviceStep cfg stop r s).raised = r.raised := by
  simp only [Limit.serviceStep]
  split
  · rfl
  · by_cases he : cfg.tagMapText.isEmpty
    · simp only [he, if_true]
      split <;> rfl
    · simp only [he, Bool.false_eq_true, if_false]
      split
      · rename_i e heq
        rcases hp with hp | hp
        · exact absurd hp (by simp [he])
        · rw [heq] at hp; simp [exIsOk] at hp
      · split
        · split <;> rfl
        · rw [lim_fold_raised _ _ _ _ _ _ h]
          split <;> rfl

/-! Helper lemmas about the delete run: effects of the torrent loop never
contain a store commit, the stop flag stays clear under a silent stop
signal, and with `accumulate` on the fresh map only ever receives keys of
currently-unreachable torrents. -/

theorem del_savedStores_append (a b : List Delete.DelEffect) :
    Delete.savedStores (a ++ b) = Delete.savedStores a ++ Delete.savedStores b := by
  simp only [Delete.savedStores, List.filterMap_append]

theorem del_handle_effects (times : Int) (svc : Str) (t : Delete.DelTorrent)
    (st : Delete.DelState) :
    Delete.savedStores (Delete.handle times svc t st).effects
      = Delete.savedStores st.effects := by
  simp only [Delete.handle]
  split
  · split
    · rw [del_savedStores_append]
      show Delete.savedStores st.effects ++ [] = Delete.savedStores st.effects
      rw [List.append_nil]
    · rfl
  · rfl

theorem del_torrentStep_effects (stop : Nat → Bool) (times : Int) (tm : List Str)
    (svc : Str) (r : Delete.DelRun) (t : Delete.DelTorrent) :
    Delete.savedStores (Delete.torrentStep stop times tm svc r t).st.effects
      = Delete.savedStores r.st.effects := by
  simp only [Delete.torrentStep]
  split
  · rfl
  · split
    · rfl
    · simp only []
      split
      · rfl
      · simp only [Delete.check]
        split
        · rfl
        · exact del_handle_effects times svc t r.st

theorem del_fold_effects (stop : Nat → Bool) (times : Int) (tm : List Str) (svc : Str)
    (ts : List Delete.DelTorrent) (r : Delete.DelRun) :
    Delete.savedStores ((ts.foldl (Delete.torrentStep stop times tm svc) r).st.effects)
      = Delete.savedStores r.st.effects := by
  induction ts generalizing r with
  | nil => rfl
  | cons t rest ih =>
    simp only [List.foldl_cons]
    rw [ih, del_torrentStep_effects]

theorem del_serviceStep_effects (stop : Nat → Bool) (times : Int) (tm : List Str)
    (r : Delete.DelRun) (s : Delete.DelService) :
    Delete.savedStores (Delete.serviceStep stop times tm r s).st.effects
      = Delete.savedStores r.st.effects := by
  simp only [Delete.serviceStep]
  split
  · rfl
  · split
    · rfl
    · exact del_fold_effects _ _ _ _ _ r

theorem del_run_effects (cfg : Delete.DelConfig) (stored : Delete.Store)
    (services : List Delete.DelService) (stop : Nat → Bool) :
    Delete.savedStores ((Delete.delRun cfg stored services stop).st.effects) = [] := by
  suffices hgen : ∀ (ss : List Delete.DelService) (r : Delete.DelRun),
      Delete.savedStores ((ss.foldl
          (Delete.serviceStep stop cfg.times (Delete.tagMapOf cfg.tagMapText)) r).st.effects)
        = Delete.savedStores r.st.effects by
    rw [Delete.delRun, hgen]
    rfl
  intro ss
  induction ss with
  | nil => intro r; rfl
  | cons s rest ih =>
    intro r
    simp only [List.foldl_cons]
    rw [ih, del_serviceStep_effects]

theorem del_torrentStep_stopped (times : Int) (tm : List Str) (svc : Str)
    (r : Delete.DelRun) (t : Delete.DelTorrent) :
    (Delete.torrentStep noStop times tm svc r t).stopped = r.stopped := by
  simp only [Delete.torrentStep, noStop]
  split
  · rfl
  · simp only [Bool.false_eq_true, if_false]

theorem del_run_not_stopped (cfg : Delete.DelConfig) (stored : Delete.Store)
    (services : List Delete.DelService) :
    (Delete.delRun cfg stored services noStop).stopped = false := by
  suffices hgen : ∀ (ss : List Delete.DelService) (r : Delete.DelRun),
      ((ss.foldl (Delete.serviceStep noStop cfg.times
          (Delete.tagMapOf cfg.tagMapText)) r).stopped) = r.stopped by
    rw [Delete.delRun, hgen]
  intro ss
  induction ss with
  | nil => intro r; rfl
  | cons s rest ih =>
    intro r
    simp only [List.foldl_cons]
    rw [ih]
    simp only [Delete.serviceStep]
    split
    · rfl
    · split
      · rfl
      · suffices hts : ∀ (ts : List Delete.DelTorrent) (r1 : Delete.DelRun),
            ((ts.foldl (Delete.torrentStep noStop cfg.times
                (Delete.tagMapOf cfg.tagMapText) s.name) r1).stopped) = r1.stopped by
          rw [hts]
        intro ts
        induction ts with
        | nil => intro r1; rfl
        | cons t rest2 ih2 =>
          intro r1
          simp only [List.foldl_cons]
          rw [ih2, del_torrentStep_stopped]

theorem del_check_newC_none (times : Int) (svc : Str) (t : Delete.DelTorrent)
    (st : Delete.DelState) (h : Str)
    (hnone : dictLookup st.newC h = none)
    (hreach : t.hash = h → t.trackerOk.any id = true) :
    dictLookup (Delete.check times svc t st).newC h = none := by
  simp only [Delete.check]
  cases hr : t.trackerOk.any id with
  | true => simpa using hnone
  | false =>
    have hne : t.hash ≠ h := fun he => by rw [hreach he] at hr; cases hr
    simp only [Bool.false_eq_true, if_false, Delete.handle]
    split
    · split
      · simpa using hnone
      · simp only [Delete.write]
        rw [dictLookup_insert]
        simp [hne, hnone]
    · simp only [Delete.write]
      rw [dictLookup_insert]
      simp [hne, hnone]

theorem del_torrentStep_newC_none (stop : Nat → Bool) (times : Int) (tm : List Str)
    (svc : Str) (r : Delete.DelRun) (t : Delete.DelTorrent) (h : Str)
    (hnone : dictLookup r.st.newC h = none)
    (hreach : t.hash = h → t.trackerOk.any id = true) :
    dictLookup (Delete.torrentStep stop times tm svc r t).st.newC h = none := by
  simp only [Delete.torrentStep]
  split
  · exact hnone
  · split
    · exact hnone
    · simp only []
      split
      · exact hnone
      · exact del_check_newC_none times svc t r.st h hnone hreach

theorem del_fold_newC_none (stop : Nat → Bool) (times : Int) (tm : List Str) (svc : Str)
    (ts : List Delete.DelTorrent) (r : Delete.DelRun) (h : Str)
    (hnone : dictLookup r.st.newC h = none)
    (hreach : ∀ t ∈ ts, t.hash = h → t.trackerOk.any id = true) :
    dictLookup ((ts.foldl (Delete.torrentStep stop times tm svc) r).st.newC) h = none := by
  induction ts generalizing r with
  | nil => exact hnone
  | cons t rest ih =>
    simp only [List.foldl_cons]
    exact ih _
      (del_torrentStep_newC_none stop times tm svc r t h hnone
        (hreach t (List.mem_cons_self t rest)))
      (fun x hx => hreach x (List.mem_cons_of_mem t hx))

theorem del_serviceStep_newC_none (stop : Nat → Bool) (times : Int) (tm : List Str)
    (r : Delete.DelRun) (s : Delete.DelService) (h : Str)
    (hnone : dictLookup r.st.newC h = none)
    (hreach : ∀ t ∈ s.torrents, t.hash = h → t.trackerOk.any id = true) :
    dictLookup (Delete.serviceStep stop times tm r s).st.newC h = none := by
  simp only [Delete.serviceStep]
  split
  · exact hnone
  · split
    · exact hnone
    · exact del_fold_newC_none stop times tm s.name s.torrents r h hnone hreach

theorem del_run_newC_none (cfg : Delete.DelConfig) (stored : Delete.Store)
    (services : List Delete.DelService) (stop : Nat → Bool) (h : Str)
    (hacc : cfg.accumulate = true)
    (hreach : ∀ s ∈ services, ∀ t ∈ s.torrents, t.hash = h → t.trackerOk.any id = true) :
    dictLookup ((Delete.delRun cfg stored services stop).st.newC) h = none := by
  suffices hgen : ∀ (ss : List Delete.DelService) (r : Delete.DelRun),
      dictLookup r.st.newC h = none →
      (∀ s ∈ ss, ∀ t ∈ s.torrents, t.hash = h → t.trackerOk.any id = true) →
      dictLookup ((ss.foldl (Delete.serviceStep stop cfg.times
          (Delete.tagMapOf cfg.tagMapText)) r).st.newC) h = none by
    refine hgen services _ ?_ hreach
    show dictLookup (if cfg.accumulate then [] else stored) h = none
    rw [hacc]
    rfl
  intro ss
  induction ss with
  | nil => intro r h0 _; exact h0
  | cons s rest ih =>
    intro r h0 hs
    simp only [List.foldl_cons]
    exact ih _
      (del_serviceStep_newC_none _ _ _ _ _ _ h0 (hs s (List.mem_cons_self s rest)))
      (fun x hx => hs x (List.mem_cons_of_mem s hx))

/-! Computation lemmas for a run over a single downloader holding a single
unreachable torrent (no tags, no trackers), with `accumulate` on. -/

theorem del_single_run_st (d : Bool) (T : Int) (svcN h nm : Str) (old : Delete.Store) :
    (Delete.delRun ⟨d, true, T, []⟩ old [⟨svcN, false, [⟨h, nm, [], []⟩]⟩] noStop).st
      = Delete.handle T svcN ⟨h, nm, [], []⟩ ⟨old, [], false, []⟩ := rfl

theorem del_single_newC_fresh (d : Bool) (T : Int) (svcN h nm : Str) (old : Delete.Store)
    (hold : dictLookup old h = none) :
    (Delete.delRun ⟨d, true, T, []⟩ old [⟨svcN, false, [⟨h, nm, [], []⟩]⟩] noStop).st.newC
      = [(h, ⟨svcN, nm, 1⟩)] := by
  rw [del_single_run_st]
  simp only [Delete.handle, hold]
  rfl

theorem del_single_newC_le (d : Bool) (T : Int) (svcN h nm : Str) (old : Delete.Store)
    (r : Delete.FailRec) (hold : dictLookup old h = some r)
    (hle : (r.time + 1 : Int) ≤ T) :
    (Delete.delRun ⟨d, true, T, []⟩ old [⟨svcN, false, [⟨h, nm, [], []⟩]⟩] noStop).st.newC
      = [(h, ⟨svcN, nm, r.time + 1⟩)] := by
  rw [del_single_run_st]
  simp only [Delete.handle, hold]
  rw [if_neg (by push_cast; omega)]
  rfl

theorem del_single_gt (d : Bool) (T : Int) (svcN h nm : Str) (old : Delete.Store)
    (r : Delete.FailRec) (hold : dictLookup old h = some r)
    (hgt : (r.time + 1 : Int) > T) :
    (Delete.delRun ⟨d, true, T, []⟩ old [⟨svcN, false, [⟨h, nm, [], []⟩]⟩] noStop).st.newC = []
    ∧ (Delete.delRun ⟨d, true, T, []⟩ old
        [⟨svcN, false, [⟨h, nm, [], []⟩]⟩] noStop).st.effects = [.delete h false] := by
  constructor
  · rw [del_single_run_st]
    simp only [Delete.handle, hold]
    rw [if_pos (by push_cast; omega)]
  · rw [del_single_run_st]
    simp only [Delete.handle, hold]
    rw [if_pos (by push_cast; omega)]
    rfl

theorem lim_run_raised (cfg : Limit.LimConfig) (services : List Limit.LimService)
    (stop : Nat → Bool)
    (hp : cfg.tagMapText.isEmpty = true ∨ exIsOk (Limit.parseTagMap cfg.tagMapText) = true)
    (h : ∀ s ∈ services, ∀ t ∈ s.torrents, exIsOk t.upLimit = true) :
    (Limit.limRun cfg services stop).raised = none := by
  suffices hgen : ∀ (ss : List Limit.LimService) (r : Limit.LimRun),
      (∀ s ∈ ss, ∀ t ∈ s.torrents, exIsOk t.upLimit = true) →
      (ss.foldl (Limit.serviceStep cfg stop) r).raised = r.raised by
    exact hgen services _ h
  intro ss
  induction ss with
  | nil => intro r _; rfl
  | cons s rest ih =>
    intro r hss
    simp only [List.foldl_cons]
    rw [ih _ (fun x hx => hss x (List.mem_cons_of_mem s hx)),
      lim_serviceStep_raised cfg stop r s hp (hss s (List.mem_cons_self s rest))]

/-! Claim theorems. -/

/-- C1 (counterexample): with accumulate=false, a torrent recorded as
unreachable in run 1 and observed reachable in run 2 still has its
FailureRecord in the store committed by run 2 — `_new_config` aliases
`_old_config` in this mode, so nothing is removed; the claim's asserted
absence of the record is false. -/
theorem C1_counterexample :
    Delete.savedStores (Delete.completeDelete ⟨false, false, 7, []⟩ []
        [⟨['d'], false, [⟨['h'], ['n'], [], []⟩]⟩] noStop)
      = [[(['h'], ⟨['d'], ['n'], 1⟩)]]
    ∧ Delete.savedStores (Delete.completeDelete ⟨false, false, 7, []⟩
        [(['h'], ⟨['d'], ['n'], 1⟩)]
        [⟨['d'], false, [⟨['h'], ['n'], [], [true]⟩]⟩] noStop)
      = [[(['h'], ⟨['d'], ['n'], 1⟩)]]
    ∧ dictLookup [(['h'], (⟨['d'], ['n'], 1⟩ : Delete.FailRec))] ['h']
      = some ⟨['d'], ['n'], 1⟩ :=
  ⟨rfl, rfl, rfl⟩

/-- C1 (amended): it is the accumulate=TRUE mode that rebuilds the store
from only the current run's unreachable set: for every run with
accumulate=true, the single committed store holds no record for a hash all
of whose torrents were observed reachable (accumulate=false instead
carries every old record over). -/
theorem C1_amended (d : Bool) (T : Int) (tmt : Str) (stored : Delete.Store)
    (services : List Delete.DelService) (h : Str)
    (hne : services ≠ [])
    (hreach : ∀ s ∈ services, ∀ t ∈ s.torrents, t.hash = h → t.trackerOk.any id = true) :
    ∃ st, Delete.savedStores (Delete.completeDelete ⟨d, true, T, tmt⟩ stored services noStop)
        = [st] ∧ dictLookup st h = none := by
  refine ⟨(Delete.delRun ⟨d, true, T, tmt⟩ stored services noStop).st.newC, ?_, ?_⟩
  · have hemp : services.isEmpty = false := by
      cases services with
      | nil => exact absurd rfl hne
      | cons a l => rfl
    simp only [Delete.completeDelete, hemp, Bool.false_eq_true, if_false,
      del_run_not_stopped]
    rw [del_savedStores_append, del_run_effects]
    rfl
  · exact del_run_newC_none _ _ _ _ h rfl hreach

/-- C1 (witness): the amended statement at a concrete input — one
downloader, one reachable torrent, a stale record for its hash, with
accumulate=true. -/
theorem C1_witness :
    ∃ st, Delete.savedStores (Delete.completeDelete ⟨false, true, 7, []⟩
        [(['h'], ⟨['d'], ['n'], 1⟩)]
        [⟨['d'], false, [⟨['h'], ['n'], [], [true]⟩]⟩] noStop)
      = [st] ∧ dictLookup st ['h'] = none :=
  C1_amended false 7 [] [(['h'], ⟨['d'], ['n'], 1⟩)]
    [⟨['d'], false, [⟨['h'], ['n'], [], [true]⟩]⟩] ['h']
    (List.cons_ne_nil _ _)
    (by
      intro s hs t ht hh
      rw [List.mem_singleton] at hs
      subst hs
      rw [List.mem_singleton] at ht
      subst ht
      rfl)

/-- C2 (counterexample): the rule table is a Python dict, so with the
duplicate-key text "a:X\na:Y\nb:Z" the entry for key "a" holds "Y" — the
value of the last matching line, not the first as the claim states. -/
theorem C2_counterexample :
    DownloadSiteTag.parseMapTag "a:X\na:Y\nb:Z".data
      = .ok [("a".data, "Y".data), ("b".data, "Z".data)]
    ∧ firstMatch [("a".data, "Y".data), ("b".data, "Z".data)] "-a-b-".data
      = some "Y".data
    ∧ "Y".data ≠ "X".data :=
  ⟨rfl, rfl, by decide⟩

/-- C2 (amended): parsing builds a Python dict from the ordered key-value
pairs of the lines, a key keeps the position of its first occurrence
(declaration order still decides priority between distinct keys, as the
concrete conjuncts show), but lookup returns the value of the LAST
assignment to the key, so with duplicate keys firstMatch yields the last
matching line's value. -/
theorem C2_amended :
    (∀ (text : Str) (ps : List (Str × Str)),
       DownloadSiteTag.mapLineKV (splitOnChar '\n' text) = .ok ps →
       DownloadSiteTag.parseMapTag text = .ok (pyDict ps))
    ∧ (∀ (ps : List (Str × Str)) (k : Str),
       dictLookup (pyDict ps) k
         = ps.foldl (fun acc p => if p.1 = k then some p.2 else acc) none)
    ∧ DownloadSiteTag.parseMapTag "a:X\nb:Z".data
      = .ok [("a".data, "X".data), ("b".data, "Z".data)]
    ∧ firstMatch [("a".data, "X".data), ("b".data, "Z".data)] "-a-b-".data
      = some "X".data := by
  refine ⟨?_, dictLookup_pyDict, rfl, rfl⟩
  intro text ps hps
  rw [DownloadSiteTag.parseMapTag, tag_parse_go _ ps hps]
  rfl

/-- C2 (witness): the amended parse characterization applied to a concrete
two-line text. -/
theorem C2_witness :
    DownloadSiteTag.parseMapTag "a:X\nb:Z".data
      = .ok (pyDict [("a".data, "X".data), ("b".data, "Z".data)]) :=
  C2_amended.1 "a:X\nb:Z".data [("a".data, "X".data), ("b".data, "Z".data)] rfl

/-- C3 (counterexample): with tag_map "slow:50\nfast:1000", tags listed as
fast,slow, cover=false and currentUploadLimit=0, the run sets 1000 — the
limit of the first tag in the torrent's own tag order — not the 50 the
claim derives from rule-table order. -/
theorem C3_counterexample :
    Limit.completeLimit ⟨false, false, .int 0, "slow:50\nfast:1000".data⟩
        [⟨"d".data, false, [⟨"h".data, ["fast".data, "slow".data], .ok 0, false⟩]⟩] noStop
      = [.setTorrentSpeed "d".data "h".data 1000]
    ∧ (1000 : Int) ≠ 50 :=
  ⟨rfl, by decide⟩

/-- C3 (amended): the resolved limit is the table value of the first tag in
the torrent's own tag order that is an exact key of the rule table
(`find?` over the tag list), so for tag_map "slow:50\nfast:1000" and tag
order fast,slow the resolved limit is 1000. -/
theorem C3_amended :
    (∀ (tagMap : List (Str × Int)) (tags : List Str),
       Limit.resolveLimitTag tagMap tags
         = (tags.find? (fun tg => (dictLookup tagMap tg).isSome)).bind
             (fun tg => dictLookup tagMap tg))
    ∧ Limit.parseTagMap "slow:50\nfast:1000".data
      = .ok [("slow".data, 50), ("fast".data, 1000)]
    ∧ Limit.resolveLimitTag [("slow".data, 50), ("fast".data, 1000)]
        ["fast".data, "slow".data] = some 1000 := by
  refine ⟨?_, rfl, rfl⟩
  intro tagMap tags
  induction tags with
  | nil => rfl
  | cons tg rest ih =>
    simp only [Limit.resolveLimitTag, List.find?]
    cases hl : dictLookup tagMap tg with
    | some v => simp [hl]
    | none => simp [hl, ih]

/-- C4 (counterexample): a malformed rule line is not skipped — a line with
no separator raises IndexError in the tag plugin's table build, and a
non-integer value raises ValueError in the limit plugin's. -/
theorem C4_counterexample :
    DownloadSiteTag.parseMapTag "abc".data = .error .indexError
    ∧ Limit.parseTagMap "tag:xx".data = .error .valueError :=
  ⟨rfl, rfl⟩

/-- C4 (amended): parsing succeeds exactly on well-formed input: it returns
a table when every line has a separator (and, for the limit plugin, every
non-empty value parses as an integer; an empty value is the only case
skipped silently), while a malformed line raises and aborts the run. -/
theorem C4_amended :
    (∀ text : Str,
       (∀ item ∈ splitOnChar '\n' text, DownloadSiteTag.tagLineOk item = true) →
       exIsOk (DownloadSiteTag.parseMapTag text) = true)
    ∧ (∀ text : Str,
       (∀ item ∈ splitOnChar '\n' text, Limit.limLineOk item = true) →
       exIsOk (Limit.parseTagMap text) = true)
    ∧ Limit.parseTagMap "tag:".data = .ok [] :=
  ⟨fun _ h => tag_parse_ok_of_lines _ h [],
   fun _ h => lim_parse_ok_of_lines _ h [],
   rfl⟩

/-- C4 (witness): the amended success statement at a concrete well-formed
text. -/
theorem C4_witness : exIsOk (DownloadSiteTag.parseMapTag "a:b".data) = true :=
  C4_amended.1 "a:b".data (by decide)

/-- C5 (counterexample): in the limit plugin the `up_limit` read happens
before the per-torrent try block, so a torrent whose read raises aborts
the whole run — the second torrent, which would have received a speed
call, is never processed. -/
theorem C5_counterexample :
    (Limit.limRun ⟨false, false, .int 0, "slow:50".data⟩
        [⟨"d".data, false,
          [⟨"h1".data, ["slow".data], .error .attributeError, false⟩,
           ⟨"h2".data, ["slow".data], .ok 0, false⟩]⟩] noStop).raised
      = some .attributeError
    ∧ (Limit.limRun ⟨false, false, .int 0, "slow:50".data⟩
        [⟨"d".data, false,
          [⟨"h1".data, ["slow".data], .error .attributeError, false⟩,
           ⟨"h2".data, ["slow".data], .ok 0, false⟩]⟩] noStop).effects = [] :=
  ⟨rfl, rfl⟩

/-- C5 (amended): exceptions inside the per-torrent try block (tag lookup,
mutator call) are caught and the loop continues — when every `up_limit`
read succeeds and the table parses, no exception escapes the run, and a
failing mutator call still lets the next torrent be processed — but the
`up_limit` field read precedes the try and its exception aborts the run. -/
theorem C5_amended :
    (∀ (cfg : Limit.LimConfig) (services : List Limit.LimService) (stop : Nat → Bool),
       (cfg.tagMapText.isEmpty = true ∨ exIsOk (Limit.parseTagMap cfg.tagMapText) = true) →
       (∀ s ∈ services, ∀ t ∈ s.torrents, exIsOk t.upLimit = true) →
       (Limit.limRun cfg services stop).raised = none)
    ∧ (Limit.limRun ⟨false, false, .int 0, "slow:50".data⟩
        [⟨"d".data, false,
          [⟨"h1".data, ["slow".data], .ok 0, true⟩,
           ⟨"h2".data, ["slow".data], .ok 0, false⟩]⟩] noStop).effects
      = [.setTorrentSpeed "d".data "h2".data 50] :=
  ⟨lim_run_raised, rfl⟩

/-- C5 (witness): the amended no-escape statement at a concrete input. -/
theorem C5_witness :
    (Limit.limRun ⟨false, false, .int 0, []⟩
        [⟨"d".data, false, [⟨"h".data, [], .ok 0, false⟩]⟩] noStop).raised = none :=
  C5_amended.1 ⟨false, false, .int 0, []⟩
    [⟨"d".data, false, [⟨"h".data, [], .ok 0, false⟩]⟩] noStop
    (Or.inl rfl) (by decide)

/-- C6 (counterexample): with threshold t = 0 the claim's "deleted at run
t+1 = 1" fails — a hash seen for the first time is always recorded with
count 1 and never deleted, so run 1 commits a record and issues no delete
call. -/
theorem C6_counterexample :
    Delete.completeDelete ⟨false, true, 0, []⟩ []
        [⟨['d'], false, [⟨['h'], ['n'], [], []⟩]⟩] noStop
      = [.save [(['h'], ⟨['d'], ['n'], 1⟩)]]
    ∧ Delete.runsStore ⟨false, true, 0, []⟩ ⟨['d'], false, [⟨['h'], ['n'], [], []⟩]⟩ 1
      = [(['h'], ⟨['d'], ['n'], 1⟩)] :=
  ⟨rfl, rfl⟩

/-- C6 (amended): for every threshold t ≥ 1, with accumulate=true and a
torrent unreachable in every run, the persisted counter after run k equals
k for 1 ≤ k ≤ t, run t+1 issues the delete with delete_files=false, and
the store committed by run t+1 holds no record for the torrent. -/
theorem C6_amended (d : Bool) (t : Nat) (svcN h nm : Str) (k : Nat)
    (ht : 1 ≤ t) (hk1 : 1 ≤ k) (hkt : k ≤ t) :
    Delete.runsStore ⟨d, true, (t : Int), []⟩ ⟨svcN, false, [⟨h, nm, [], []⟩]⟩ k
      = [(h, ⟨svcN, nm, k⟩)]
    ∧ Delete.DelEffect.delete h false ∈
        Delete.completeDelete ⟨d, true, (t : Int), []⟩
          (Delete.runsStore ⟨d, true, (t : Int), []⟩ ⟨svcN, false, [⟨h, nm, [], []⟩]⟩ t)
          [⟨svcN, false, [⟨h, nm, [], []⟩]⟩] noStop
    ∧ Delete.runsStore ⟨d, true, (t : Int), []⟩ ⟨svcN, false, [⟨h, nm, [], []⟩]⟩ (t + 1)
      = [] := by
  have key : ∀ j, 1 ≤ j → j ≤ t →
      Delete.runsStore ⟨d, true, (t : Int), []⟩ ⟨svcN, false, [⟨h, nm, [], []⟩]⟩ j
        = [(h, ⟨svcN, nm, j⟩)] := by
    intro j
    induction j with
    | zero => omega
    | succ j ihj =>
      intro _ hle
      by_cases hj : j = 0
      · subst hj
        show (Delete.delRun ⟨d, true, (t : Int), []⟩
            (Delete.runsStore _ _ 0) [⟨svcN, false, [⟨h, nm, [], []⟩]⟩] noStop).st.newC = _
        exact del_single_newC_fresh d (t : Int) svcN h nm [] rfl
      · have hprev := ihj (by omega) (by omega)
        show (Delete.delRun ⟨d, true, (t : Int), []⟩
            (Delete.runsStore _ _ j) [⟨svcN, false, [⟨h, nm, [], []⟩]⟩] noStop).st.newC = _
        rw [hprev]
        exact del_single_newC_le d (t : Int) svcN h nm _ ⟨svcN, nm, j⟩
          (by simp [dictLookup]) (by push_cast; omega)
  have hstore := key t ht le_rfl
  have hgt : ((⟨svcN, nm, t⟩ : Delete.FailRec).time + 1 : Int) > (t : Int) := by
    push_cast
    omega
  have hdel := del_single_gt d (t : Int) svcN h nm [(h, ⟨svcN, nm, t⟩)] ⟨svcN, nm, t⟩
    (by simp [dictLookup]) hgt
  refine ⟨key k hk1 hkt, ?_, ?_⟩
  · rw [hstore]
    simp only [Delete.completeDelete, List.isEmpty_cons, Bool.false_eq_true, if_false,
      del_run_not_stopped]
    rw [hdel.2]
    exact List.mem_append_left _ (List.mem_singleton.mpr rfl)
  · show (Delete.delRun ⟨d, true, (t : Int), []⟩
        (Delete.runsStore _ _ t) [⟨svcN, false, [⟨h, nm, [], []⟩]⟩] noStop).st.newC = _
    rw [hstore]
    exact hdel.1

/-- C6 (witness): the amended statement at threshold 7, run 7 — the counter
reads 7, run 8 deletes with delete_files=false and drops the record. -/
theorem C6_witness :
    Delete.runsStore ⟨false, true, 7, []⟩ ⟨['d'], false, [⟨['h'], ['n'], [], []⟩]⟩ 7
      = [(['h'], ⟨['d'], ['n'], 7⟩)]
    ∧ Delete.DelEffect.delete ['h'] false ∈
        Delete.completeDelete ⟨false, true, 7, []⟩
          (Delete.runsStore ⟨false, true, 7, []⟩ ⟨['d'], false, [⟨['h'], ['n'], [], []⟩]⟩ 7)
          [⟨['d'], false, [⟨['h'], ['n'], [], []⟩]⟩] noStop
    ∧ Delete.runsStore ⟨false, true, 7, []⟩ ⟨['d'], false, [⟨['h'], ['n'], [], []⟩]⟩ 8
      = [] :=
  C6_amended false 7 ['d'] ['h'] ['n'] 7 (by decide) (by decide) (by decide)

/-- C7: in every delete run the effect list is the torrent-loop effects
(which contain no store commit) followed by exactly one whole-map commit —
present only when there was at least one active service and the stop
signal did not fire; a stopped run ends with no commit at all. -/
theorem C7_theorem (cfg : Delete.DelConfig) (stored : Delete.Store)
    (services : List Delete.DelService) (stop : Nat → Bool) :
    Delete.completeDelete cfg stored services stop
      = (Delete.delRun cfg stored services stop).st.effects ++
          (if services.isEmpty then []
           else if (Delete.delRun cfg stored services stop).stopped then []
           else [.save (Delete.delRun cfg stored services stop).st.newC])
    ∧ Delete.savedStores ((Delete.delRun cfg stored services stop).st.effects) = [] := by
  constructor
  · simp only [Delete.completeDelete]
    by_cases he : services.isEmpty
    · rw [if_pos he, if_pos he, List.append_nil]
      cases services with
      | nil => rfl
      | cons a l => simp at he
    · rw [if_neg he, if_neg he]
      by_cases hs : (Delete.delRun cfg stored services stop).stopped
      · rw [if_pos hs, if_pos hs, List.append_nil]
      · rw [if_neg hs, if_neg hs]
  · exact del_run_effects cfg stored services stop

/-- C8 (counterexample): a qbittorrent torrent matching a save-path rule
gets a `set_torrent_tag` call on every run — after the first run applied
the label, the second run issues the call again (with an empty added-tag
list), so the second run is not mutator-free as the claim asserts. -/
theorem C8_counterexample :
    DownloadSiteTag.processTorrent [] [] [("/data".data, "Movies".data)]
        (fun d => d) (fun _ => none)
        ⟨.qbittorrent, "h".data, "/data/x".data, ["".data], []⟩
      = some (.setTags "h".data ["Movies".data])
    ∧ DownloadSiteTag.processTorrent [] [] [("/data".data, "Movies".data)]
        (fun d => d) (fun _ => none)
        ⟨.qbittorrent, "h".data, "/data/x".data, ["".data, "Movies".data], []⟩
      = some (.setTags "h".data []) :=
  ⟨rfl, rfl⟩

/-- C8 (amended): the second run is a no-op only for a torrent matching no
save-path rule whose tags already include a known indexer name — then no
label is collected and no mutator call is issued; a torrent matching a
save-path rule is mutated again on every run. -/
theorem C8_amended (indexers : List Str) (trackerMap savePathMap : List (Str × Str))
    (urlDomain : Str → Str) (getIndexer : Str → Option Str)
    (t : DownloadSiteTag.TagTorrent)
    (hpath : firstMatch savePathMap t.path = none)
    (htag : t.tags.any (fun tg => indexers.contains tg) = true) :
    DownloadSiteTag.processTorrent indexers trackerMap savePathMap urlDomain getIndexer t
      = none := by
  simp only [DownloadSiteTag.processTorrent, hpath, htag, Option.toList_none, if_true]
  split
  · rfl
  · rfl

/-- C8 (witness): the amended no-op statement at a concrete tagged
torrent. -/
theorem C8_witness :
    DownloadSiteTag.processTorrent ["S".data] [] [("/y".data, "L".data)]
        (fun d => d) (fun _ => none)
        ⟨.qbittorrent, "h".data, "/x".data, ["S".data], []⟩ = none :=
  C8_amended ["S".data] [] [("/y".data, "L".data)] (fun d => d) (fun _ => none)
    ⟨.qbittorrent, "h".data, "/x".data, ["S".data], []⟩ rfl rfl

/-- C9: the `delete` configuration switch is read into the run
configuration but never consulted — every run's effects are identical for
both settings, and a concrete run with the switch off still issues the
delete call once the failure count exceeds the threshold. -/
theorem C9_theorem :
    (∀ (cfg : Delete.DelConfig) (b : Bool) (stored : Delete.Store)
       (services : List Delete.DelService) (stop : Nat → Bool),
       Delete.completeDelete { cfg with delete := b } stored services stop
         = Delete.completeDelete cfg stored services stop)
    ∧ Delete.DelEffect.delete ['h'] false ∈
        Delete.completeDelete ⟨false, true, 1, []⟩ [(['h'], ⟨['d'], ['n'], 1⟩)]
          [⟨['d'], false, [⟨['h'], ['n'], [], []⟩]⟩] noStop :=
  ⟨fun _ _ _ _ _ => rfl, by decide⟩

/-- C10 (counterexample): a missing `global_speed` (a `None` configuration
value) does not default to 0 and the placeholder — `int(None)` raises
TypeError, which `str_to_number` does not catch, so initialization raises
instead of assigning the placeholder. -/
theorem C10_counterexample : Limit.initGlobalSpeed none = .error .typeError := rfl

/-- C10 (amended): when the configured `global_speed` string parses to 0 or
fails to parse as an integer (ValueError, defaulted to 0), `_global_speed`
becomes the placeholder string "全局限速(KB)", and with global mode on that
string is passed as the upload_limit argument of `set_speed_limit`; only a
missing (None) value raises instead. -/
theorem C10_amended :
    (∀ s : Str, pyInt s = .ok 0 →
       Limit.initGlobalSpeed (some s) = .ok (.str Limit.gsPlaceholder))
    ∧ (∀ s : Str, pyInt s = .error .valueError →
       Limit.initGlobalSpeed (some s) = .ok (.str Limit.gsPlaceholder))
    ∧ Limit.completeLimit ⟨false, true, .str Limit.gsPlaceholder, []⟩
        [⟨"d".data, false, []⟩] noStop
      = [.setSpeedLimit 0 (.str Limit.gsPlaceholder) "d".data] := by
  refine ⟨?_, ?_, rfl⟩
  · intro s hs
    simp [Limit.initGlobalSpeed, strToNumber, hs]
  · intro s hs
    simp [Limit.initGlobalSpeed, strToNumber, hs]

/-- C10 (witness): the amended placeholder statement at the concrete string
"0". -/
theorem C10_witness :
    Limit.initGlobalSpeed (some "0".data) = .ok (.str Limit.gsPlaceholder) :=
  C10_amended.1 "0".data rfl

end MPP
